import Mathlib

set_option maxRecDepth 8000

/-!
# Durable Agent Orchestrator — verification of the execution engine

Shallow embedding of `src/app/engine.py` (classes `Graph` and `Engine`),
`src/app/models.py` (the pydantic data model) and the registry interface of
`src/app/registry.py`, together with theorems settling the frozen claims
about the natural-language specification.

Modelling conventions:
* Workflow state values are JSON/Python values, embedded as `PyVal`.
  Numbers are modelled as integers (no claim depends on float-specific
  behaviour); Python booleans participate in numeric comparison and
  equality (`True == 1`), which the embedding reproduces.
* The text of a `TypeError` raised by a Python comparison is abstracted to
  a fixed string; only the fact that an exception of that kind is raised is
  observable to the engine (it is caught by the loop boundary handler).
* Nested dictionary equality is modelled pairwise in stored order; the
  engine itself only reads states through the reserved `__suspend__` key
  and condition-key lookups, and no theorem below compares nested
  dictionaries.
* The database session is modelled by explicit state passing: every
  `db.commit()` appends the current run snapshot to a list of persisted
  snapshots, and the persisted row after an operation is the last committed
  snapshot.
-/

/-- A Python/JSON value as stored in a workflow state. -/
inductive PyVal where
  | null
  | bool (b : Bool)
  | int (n : Int)
  | str (s : String)
  | list (xs : List PyVal)
  | dict (xs : List (String × PyVal))

/-- Python exceptions observable by the engine: `WorkflowExecutionError`
raised by `Graph.get_node_func`, `TypeError` raised by comparisons of
unorderable values, and arbitrary exceptions raised by node functions.
`errStr` renders `str(e)` as used in log messages. -/
inductive PyErr where
  | workflowError (msg : String)
  | typeError (msg : String)
  | exc (msg : String)

def errStr : PyErr → String
  | .workflowError m => m
  | .typeError m => m
  | .exc m => m

mutual
/-- Python `==` (deep equality) on embedded values. `True == 1` holds. -/
def pyEq : PyVal → PyVal → Bool
  | .null, .null => true
  | .bool a, .bool b => a == b
  | .bool a, .int n => (if a then (1 : Int) else 0) == n
  | .int n, .bool b => n == (if b then (1 : Int) else 0)
  | .int a, .int b => a == b
  | .str a, .str b => a == b
  | .list a, .list b => pyEqList a b
  | .dict a, .dict b => pyEqDict a b
  | _, _ => false

def pyEqList : List PyVal → List PyVal → Bool
  | [], [] => true
  | x :: xs, y :: ys => pyEq x y && pyEqList xs ys
  | _, _ => false

def pyEqDict : List (String × PyVal) → List (String × PyVal) → Bool
  | [], [] => true
  | (k, v) :: xs, (k2, w) :: ys => k == k2 && pyEq v w && pyEqDict xs ys
  | _, _ => false
end

/-- The fixed abstraction of a comparison `TypeError`. -/
def cmpTypeError : PyErr := .typeError "unorderable types"

mutual
/-- Python's ordering on embedded values: numerics with numerics (booleans
coerce to integers), strings with strings, lists lexicographically; any
other combination raises `TypeError`. -/
def pyCmp : PyVal → PyVal → Except PyErr Ordering
  | .bool a, .bool b => .ok (compare (if a then (1 : Int) else 0) (if b then (1 : Int) else 0))
  | .bool a, .int m => .ok (compare (if a then (1 : Int) else 0) m)
  | .int n, .bool b => .ok (compare n (if b then (1 : Int) else 0))
  | .int n, .int m => .ok (compare n m)
  | .str a, .str b => .ok (compare a b)
  | .list a, .list b => pyCmpList a b
  | _, _ => .error cmpTypeError

def pyCmpList : List PyVal → List PyVal → Except PyErr Ordering
  | [], [] => .ok .eq
  | [], _ :: _ => .ok .lt
  | _ :: _, [] => .ok .gt
  | x :: xs, y :: ys => if pyEq x y then pyCmpList xs ys else pyCmp x y
end

/-- Character-list prefix test (used for Python substring membership). -/
def charsPref : List Char → List Char → Bool
  | [], _ => true
  | _ :: _, [] => false
  | a :: as, b :: bs => a == b && charsPref as bs

/-- Character-list contiguous-sublist test. -/
def charsSub (s : List Char) : List Char → Bool
  | [] => s.isEmpty
  | c :: rest => charsPref s (c :: rest) || charsSub s rest

/-- Python `val in target`: substring for strings, membership by `==` for
lists, key membership for dicts (non-string hashables are simply absent,
unhashables raise), `TypeError` for non-containers. -/
def pyIn (val target : PyVal) : Except PyErr Bool :=
  match target with
  | .str t =>
    match val with
    | .str s => .ok (charsSub s.toList t.toList)
    | _ => .error cmpTypeError
  | .list xs => .ok (xs.any (fun x => pyEq x val))
  | .dict xs =>
    match val with
    | .str s => .ok (xs.any (fun kv => kv.1 == s))
    | .list _ => .error cmpTypeError
    | .dict _ => .error cmpTypeError
    | _ => .ok false
  | _ => .error cmpTypeError

/-- Python truthiness of an embedded value. -/
def pyTruthy : PyVal → Bool
  | .null => false
  | .bool b => b
  | .int n => n != 0
  | .str s => !s.isEmpty
  | .list xs => !xs.isEmpty
  | .dict xs => !xs.isEmpty

/-- A workflow state: the top-level Python dict `run.state`
(`Dict[str, Any]`), modelled as an association list with unique keys. -/
def StateD := List (String × PyVal)

/-- `state.get(key)` as an `Option` (used for truthiness-style reads). -/
def stateFind (st : StateD) (k : String) : Option PyVal :=
  (List.find? (fun p => p.1 == k) st).map (fun p => p.2)

/-- `state.get(key)`: Python returns `None` when the key is missing. -/
def stateGet (st : StateD) (k : String) : PyVal :=
  (stateFind st k).getD .null

/-- `state.pop(key, None)`'s effect on the dict: drop the key's binding. -/
def eraseKey (st : StateD) (k : String) : StateD :=
  List.filter (fun p => p.1 != k) st

/-! ## Data model (`src/app/models.py`) -/

/-- `NodeConfig`: a node id and the registry name of its function. -/
structure NodeConfig where
  id : String
  function : String

/-- `Condition`: `{key, operator, value}` guarding an edge.  The operator
is the literal string used by the engine (`"=="`, `"!="`, `">"`, `"<"`,
`">="`, `"<="`, `"in"`). -/
structure Condition where
  key : String
  operator : String
  value : PyVal

/-- `EdgeConfig`: a directed edge with an optional condition. -/
structure EdgeConfig where
  source : String
  target : String
  condition : Option Condition := none

/-- `GraphCreateRequest`: a full graph definition. -/
structure GraphCreateRequest where
  nodes : List NodeConfig
  edges : List EdgeConfig
  start_node : String

/-- A node function: receives (a copy of) the state dict and either
returns a replacement state, returns `None` (no replacement), or raises. -/
def NodeFunc := StateD → Except PyErr (Option StateD)

/-- The node registry (`node_registry.get`): name → function or `None`. -/
def Registry := String → Option NodeFunc

/-! ## `Graph` methods (`src/app/engine.py`, class `Graph`) -/

/-- `Graph.evaluate_condition`: look up `state.get(condition.key)` and apply
the operator; unknown operators return `False`. -/
def evaluate_condition (c : Condition) (st : StateD) : Except PyErr Bool :=
  let val := stateGet st c.key
  let target := c.value
  match c.operator with
  | "==" => .ok (pyEq val target)
  | "!=" => .ok (!pyEq val target)
  | ">" => (pyCmp val target).map (fun o => o == .gt)
  | "<" => (pyCmp val target).map (fun o => o == .lt)
  | ">=" => (pyCmp val target).map (fun o => !(o == .lt))
  | "<=" => (pyCmp val target).map (fun o => !(o == .gt))
  | "in" => pyIn val target
  | _ => .ok false

/-- The `for edge in candidates` loop of `Graph.get_next_node`: return the
target of the first edge whose condition is absent or evaluates to true. -/
def firstEdgeMatch (st : StateD) : List EdgeConfig → Except PyErr (Option String)
  | [] => .ok none
  | e :: rest =>
    match e.condition with
    | some c => do
      if (← evaluate_condition c st) then return some e.target
      else firstEdgeMatch st rest
    | none => .ok (some e.target)

/-- `Graph.get_next_node`: filter edges by source (preserving definition
order) and take the first match. -/
def get_next_node (g : GraphCreateRequest) (current_node_id : String) (st : StateD) :
    Except PyErr (Option String) :=
  firstEdgeMatch st (g.edges.filter (fun e => e.source == current_node_id))

/-- `self.nodes = {n.id: n for n in definition.nodes}` followed by
`self.nodes.get(node_id)`: a Python dict comprehension keeps the **last**
entry for a duplicated id. -/
def nodesGet (nodes : List NodeConfig) (node_id : String) : Option NodeConfig :=
  List.find? (fun n => n.id == node_id) nodes.reverse

/-- `Graph.get_node_func`: resolve the node, then its registry function;
either lookup failure raises `WorkflowExecutionError`. -/
def get_node_func (g : GraphCreateRequest) (reg : Registry) (node_id : String) :
    Except PyErr NodeFunc :=
  match nodesGet g.nodes node_id with
  | none => .error (.workflowError ("Node " ++ node_id ++ " not found in graph."))
  | some nd =>
    match reg nd.function with
    | none => .error (.workflowError ("Function " ++ nd.function ++ " not found in registry."))
    | some f => .ok f

/-! ## Run records and the engine (`src/app/engine.py`, class `Engine`) -/

/-- `WorkflowRunModel`: the persisted run row (timestamps omitted — they are
wall-clock metadata never read by the engine). -/
structure RunState where
  run_id : String
  graph_id : String
  status : String
  current_node_id : Option String
  state : StateD
  logs : List String

/-- `GraphStateResponse`: the snapshot returned to callers. -/
structure GraphStateResponse where
  run_id : String
  status : String
  state : StateD
  logs : List String

/-- `Engine._to_response`. -/
def to_response (run : RunState) : GraphStateResponse :=
  { run_id := run.run_id, status := run.status, state := run.state, logs := run.logs }

/-- `Engine._log`: append one message to the run's log list. -/
def logR (run : RunState) (message : String) : RunState :=
  { run with logs := run.logs ++ [message] }

/-- `db.commit()`: append the current run snapshot to the persisted history. -/
def commitR (commits : List RunState) (run : RunState) : List RunState :=
  commits ++ [run]

/-- The outcome of `_execute_loop` (or of a whole `run`/`resume` call):
the final in-memory run object, every snapshot committed during the call
in order, the value of the `steps` counter, and the exception re-raised to
the caller (`none` when the call returned `_to_response(run)` normally). -/
structure LoopRes where
  run : RunState
  commits : List RunState
  steps : Nat
  err : Option PyErr

/-- The `except Exception` handler at the loop boundary: set status to
failed, log `Run failed: {e}`, commit, and re-raise. -/
def failOuter (e : PyErr) (steps : Nat) (run : RunState) (commits : List RunState) : LoopRes :=
  let run1 := logR { run with status := "failed" } ("Run failed: " ++ errStr e)
  { run := run1, commits := commitR commits run1, steps := steps, err := some e }

/-- The code after the `while` loop: log budget exhaustion (in memory only —
there is no commit on that path), and mark-and-commit completion when the
cursor is null. -/
def afterLoop (steps : Nat) (run : RunState) (commits : List RunState) : LoopRes :=
  let run1 := if 50 ≤ steps then logR run "Max steps reached. Terminating." else run
  match run1.current_node_id with
  | none =>
    let run2 := { run1 with status := "completed" }
    { run := run2, commits := commitR commits run2, steps := steps, err := none }
  | some _ => { run := run1, commits := commits, steps := steps, err := none }

/-- `if new_state is not None: run.state = new_state`: the run's state is
fully replaced by the function's return value, or retained when the
function returned `None`. -/
def applyNodeResult (run1 : RunState) (newState : Option StateD) : RunState :=
  match newState with
  | none => run1
  | some s => { run1 with state := s }

/-- The suspension block: log, set status to awaiting_approval, strip the
reserved marker from the state (cursor untouched). -/
def suspendRun (run2 : RunState) : RunState :=
  let run3 := logR run2 "Suspending for Approval (HITL)."
  let run4 := { run3 with status := "awaiting_approval" }
  { run4 with state := eraseKey run4.state "__suspend__" }

/-- The transition block: log the transition (or the absence of one) and
move the cursor to the resolved next node (or null). -/
def applyNextNode (run2 : RunState) (node_id : String) (nextNode : Option String) : RunState :=
  match nextNode with
  | some t =>
    { logR run2 ("Transition: " ++ node_id ++ " -> " ++ t) with current_node_id := some t }
  | none =>
    { logR run2 ("No transitions found from " ++ node_id ++ ". Ending.") with
      current_node_id := none }

/-- The body of `Engine._execute_loop`'s `while` loop, by fuel recursion.
The loop guard is `run.current_node_id and steps < max_steps` with
`max_steps = 50`; the fuel only serves termination and is initialised to 50,
so it can never run out before the `steps` guard stops the loop. -/
def loopGo (reg : Registry) (g : GraphCreateRequest) :
    Nat → Nat → RunState → List RunState → LoopRes
  | 0, steps, run, commits => afterLoop steps run commits
  | fuel + 1, steps, run, commits =>
    match run.current_node_id with
    | none => afterLoop steps run commits
    | some node_id =>
      if 50 ≤ steps then afterLoop steps run commits
      else if run.status != "running" then afterLoop steps run commits
      else
        let steps1 := steps + 1
        let run1 := logR run ("Executing node: " ++ node_id)
        match get_node_func g reg node_id with
        | .error e => failOuter e steps1 run1 commits
        | .ok func =>
          match func run1.state with
          | .error e =>
            let run2 := logR run1 ("Error executing node " ++ node_id ++ ": " ++ errStr e)
            let run3 := { run2 with status := "failed" }
            failOuter e steps1 run3 (commitR commits run3)
          | .ok newState =>
            let run2 := applyNodeResult run1 newState
            let commits1 := commitR commits run2
            if pyTruthy (stateGet run2.state "__suspend__") then
              let run3 := suspendRun run2
              { run := run3, commits := commitR commits1 run3, steps := steps1, err := none }
            else
              match get_next_node g node_id run2.state with
              | .error e => failOuter e steps1 run2 commits1
              | .ok nextNode =>
                let run3 := applyNextNode run2 node_id nextNode
                loopGo reg g fuel steps1 run3 (commitR commits1 run3)

/-- `Engine._execute_loop` on a freshly opened session. -/
def execLoop (reg : Registry) (g : GraphCreateRequest) (run : RunState) : LoopRes :=
  loopGo reg g 50 0 run []

/-- `Engine.run_graph` after the graph has been loaded: create the run row
(status running, cursor at the start node), commit it, and enter the loop. -/
def run_graph (reg : Registry) (g : GraphCreateRequest) (graph_id run_id : String)
    (initial_state : StateD) : LoopRes :=
  let run0 : RunState :=
    { run_id := run_id, graph_id := graph_id, status := "running",
      current_node_id := some g.start_node, state := initial_state,
      logs := ["Starting run " ++ run_id ++ " with graph " ++ graph_id] }
  let res := execLoop reg g run0
  { res with commits := run0 :: res.commits }

/-- Python `str` of an optional node id (`str(None) = "None"`). -/
def optStr : Option String → String
  | none => "None"
  | some s => s

/-- `Engine.resume_run` after the run row and graph have been loaded. -/
def resume_run (reg : Registry) (g : GraphCreateRequest) (run : RunState) : LoopRes :=
  if run.status == "completed" then
    { run := run, commits := [], steps := 0, err := none }
  else if run.status == "awaiting_approval" then
    let nextE :=
      match run.current_node_id with
      | some c => get_next_node g c run.state
      | none => .ok none
    match nextE with
    | .error e => { run := run, commits := [], steps := 0, err := some e }
    | .ok nextNode =>
      let run1 := { run with current_node_id := nextNode, status := "running" }
      let run2 := logR run1 ("Resuming from AWAITING_APPROVAL. Transitioning to " ++ optStr nextNode)
      let res := execLoop reg g run2
      { res with commits := run2 :: res.commits }
  else execLoop reg g run

/-- `Engine.create_graph`: generate an id and persist the definition —
the code performs **no** validation of the definition. The graph store is
modelled as an association list of persisted definitions. -/
def create_graph (definition : GraphCreateRequest) (graph_id : String)
    (db : List (String × GraphCreateRequest)) :
    String × List (String × GraphCreateRequest) :=
  (graph_id, db ++ [(graph_id, definition)])

/-! ## Definitions supporting the claims -/

/-- The kind of a value for Python's ordering: numerics (bool/int),
strings, lists; `none` for values Python refuses to order (null, dict). -/
inductive OrderKind where
  | num
  | text
  | seq
deriving DecidableEq

def orderKind : PyVal → Option OrderKind
  | .bool _ => some .num
  | .int _ => some .num
  | .str _ => some .text
  | .list _ => some .seq
  | _ => none

/-- Value is numeric (Python counts `bool` as numeric). -/
def isNumVal : PyVal → Bool
  | .bool _ => true
  | .int _ => true
  | _ => false

/-- Value is a string. -/
def isStrVal : PyVal → Bool
  | .str _ => true
  | _ => false

/-- Following the spec's words (no such check exists in the source):
"mutually ordered (numeric-numeric or string-string)". -/
def spec_mutually_ordered (a b : PyVal) : Bool :=
  (isNumVal a && isNumVal b) || (isStrVal a && isStrVal b)

/-- Following the spec's words (no such check exists in the source):
`create(definition)` "validates unique node ids and a resolvable
start_node". -/
def spec_valid_definition (d : GraphCreateRequest) : Prop :=
  (d.nodes.map NodeConfig.id).Nodup ∧ d.start_node ∈ d.nodes.map NodeConfig.id

/-- A node function that returns `None` (state retained). -/
def noopFunc : NodeFunc := fun _ => .ok none

/-- A node function that sets the reserved suspend marker
(like `wait_for_approval` in `src/app/registry.py`). -/
def suspFunc : NodeFunc := fun st => .ok (some (("__suspend__", .bool true) :: st))

/-- A node function that raises. -/
def boomFunc : NodeFunc := fun _ => .error (.exc "boom")

/-- A small concrete registry for witnesses and counterexamples. -/
def demoReg : Registry := fun name =>
  if name == "noop" then some noopFunc
  else if name == "susp" then some suspFunc
  else if name == "boom" then some boomFunc
  else none

/-- A two-node cycle with unconditional edges and no terminating condition. -/
def cycGraph : GraphCreateRequest :=
  { nodes := [⟨"a", "noop"⟩, ⟨"b", "noop"⟩],
    edges := [⟨"a", "b", none⟩, ⟨"b", "a", none⟩],
    start_node := "a" }

/-- A one-node graph whose node function raises. -/
def boomGraph : GraphCreateRequest :=
  { nodes := [⟨"a", "boom"⟩], edges := [], start_node := "a" }

/-- A graph whose start node suspends, then hands off to a noop node. -/
def suspGraph : GraphCreateRequest :=
  { nodes := [⟨"a", "susp"⟩, ⟨"b", "noop"⟩],
    edges := [⟨"a", "b", none⟩],
    start_node := "a" }

/-- A definition with duplicate node ids and an unresolvable start node. -/
def dupDef : GraphCreateRequest :=
  { nodes := [⟨"a", "noop"⟩, ⟨"a", "susp"⟩], edges := [], start_node := "zzz" }

/-- Concrete inputs for the suspend/resume round-trip witness. -/
def wSuspRun : RunState :=
  { run_id := "r", graph_id := "g", status := "running",
    current_node_id := some "a", state := [("x", .int 7)], logs := [] }

def wSuspState : StateD := [("__suspend__", .bool true), ("x", .int 7)]

def wSusRow : RunState :=
  { run_id := "r", graph_id := "g", status := "awaiting_approval",
    current_node_id := some "a", state := [("x", .int 7)],
    logs := ["Executing node: a", "Suspending for Approval (HITL)."] }

/-- Concrete rows committed by running the raising one-node graph
(used for the persisted-invariant counterexample). -/
def c8Row0 : RunState :=
  { run_id := "r", graph_id := "g", status := "running", current_node_id := some "a",
    state := [], logs := ["Starting run r with graph g"] }

def c8Row : RunState :=
  { run_id := "r", graph_id := "g", status := "failed", current_node_id := some "a",
    state := [],
    logs := ["Starting run r with graph g", "Executing node: a",
      "Error executing node a: boom"] }

def c8Row2 : RunState :=
  { run_id := "r", graph_id := "g", status := "failed", current_node_id := some "a",
    state := [],
    logs := ["Starting run r with graph g", "Executing node: a",
      "Error executing node a: boom", "Run failed: boom"] }

/-- The run row created at the top of `Engine.run_graph`. -/
def initialRun (g : GraphCreateRequest) (graph_id run_id : String)
    (initial_state : StateD) : RunState :=
  { run_id := run_id, graph_id := graph_id, status := "running",
    current_node_id := some g.start_node, state := initial_state,
    logs := ["Starting run " ++ run_id ++ " with graph " ++ graph_id] }

/-- The persisted row after an engine call: the last committed snapshot, or
the previous row when the call committed nothing. -/
def persistedAfter (prev : RunState) (res : LoopRes) : RunState :=
  res.commits.getLastD prev

/-- Persisted run rows reachable as the current row of some run: created by
`run_graph` and then carried through any sequence of `resume_run` calls. -/
inductive ReachRow (reg : Registry) (g : GraphCreateRequest) : RunState → Prop where
  | start (graph_id run_id : String) (initial_state : StateD) :
      ReachRow reg g (persistedAfter (initialRun g graph_id run_id initial_state)
        (run_graph reg g graph_id run_id initial_state))
  | resume (r : RunState) (h : ReachRow reg g r) :
      ReachRow reg g (persistedAfter r (resume_run reg g r))

/-- Every snapshot ever committed by the engine's operations: the commits of
a `run_graph` call, or of a `resume_run` call on a reachable current row. -/
inductive CommittedRow (reg : Registry) (g : GraphCreateRequest) : RunState → Prop where
  | ofRun (graph_id run_id : String) (initial_state : StateD) (r : RunState)
      (h : r ∈ (run_graph reg g graph_id run_id initial_state).commits) :
      CommittedRow reg g r
  | ofResume (r r2 : RunState) (hr : ReachRow reg g r)
      (h : r2 ∈ (resume_run reg g r).commits) :
      CommittedRow reg g r2

/-- The persisted status/cursor invariant the code actually maintains. -/
def rowInv (r : RunState) : Prop :=
  (r.status = "running" ∨ r.status = "awaiting_approval" ∨
    r.status = "completed" ∨ r.status = "failed") ∧
  (r.status = "completed" → r.current_node_id = none) ∧
  (r.status = "awaiting_approval" → r.current_node_id ≠ none) ∧
  (r.status = "failed" → r.current_node_id ≠ none)

/-! ## Lemmas about `get_next_node` -/

theorem firstEdgeMatch_cons_false (st : StateD) (e : EdgeConfig) (c : Condition)
    (rest : List EdgeConfig) (hc : e.condition = some c)
    (hv : evaluate_condition c st = .ok false) :
    firstEdgeMatch st (e :: rest) = firstEdgeMatch st rest := by
  simp only [firstEdgeMatch, hc, hv]
  rfl

theorem firstEdgeMatch_cons_match (st : StateD) (e : EdgeConfig) (rest : List EdgeConfig)
    (h : e.condition = none ∨
      ∃ c, e.condition = some c ∧ evaluate_condition c st = .ok true) :
    firstEdgeMatch st (e :: rest) = .ok (some e.target) := by
  rcases h with h | ⟨c, hc, hv⟩
  · simp [firstEdgeMatch, h]
  · simp only [firstEdgeMatch, hc, hv]
    rfl

theorem firstEdgeMatch_append_false (st : StateD) (pre rest : List EdgeConfig)
    (h : ∀ e ∈ pre, ∃ c, e.condition = some c ∧ evaluate_condition c st = .ok false) :
    firstEdgeMatch st (pre ++ rest) = firstEdgeMatch st rest := by
  induction pre with
  | nil => rfl
  | cons e pre ih =>
    obtain ⟨c, hc, hv⟩ := h e (List.mem_cons_self e pre)
    rw [List.cons_append, firstEdgeMatch_cons_false st e c _ hc hv]
    exact ih (fun e2 he2 => h e2 (List.mem_cons_of_mem e he2))

theorem firstEdgeMatch_all_false (st : StateD) (l : List EdgeConfig)
    (h : ∀ e ∈ l, ∃ c, e.condition = some c ∧ evaluate_condition c st = .ok false) :
    firstEdgeMatch st l = .ok none := by
  have := firstEdgeMatch_append_false st l [] h
  simpa using this

/-- **C2.** `next_node` filters the edge list to the edges leaving the
current node, preserving definition order, and returns the target of the
first such edge whose condition is absent or evaluates to true — no matter
what later edges would match; if every candidate edge's condition evaluates
to false (in particular when there is no candidate edge at all), it returns
none. -/
theorem get_next_node_first_match (g : GraphCreateRequest) (cur : String) (st : StateD) :
    (∀ (pre : List EdgeConfig) (e : EdgeConfig) (post : List EdgeConfig),
      g.edges.filter (fun e2 => e2.source == cur) = pre ++ e :: post →
      (∀ e2 ∈ pre, ∃ c, e2.condition = some c ∧ evaluate_condition c st = .ok false) →
      (e.condition = none ∨
        ∃ c, e.condition = some c ∧ evaluate_condition c st = .ok true) →
      get_next_node g cur st = .ok (some e.target)) ∧
    ((∀ e2 ∈ g.edges.filter (fun e2 => e2.source == cur),
        ∃ c, e2.condition = some c ∧ evaluate_condition c st = .ok false) →
      get_next_node g cur st = .ok none) := by
  constructor
  · intro pre e post hsplit hpre hmatch
    unfold get_next_node
    rw [hsplit, firstEdgeMatch_append_false st pre _ hpre,
      firstEdgeMatch_cons_match st e post hmatch]
  · intro hall
    unfold get_next_node
    exact firstEdgeMatch_all_false st _ hall

/-- Witness for C2: in a concrete graph, the second candidate edge (first
whose condition holds) wins even though the third would also match. -/
theorem get_next_node_first_match_witness :
    get_next_node
      { nodes := [⟨"s", "noop"⟩, ⟨"t2", "noop"⟩, ⟨"t3", "noop"⟩],
        edges := [⟨"s", "t1", some ⟨"k", "==", .int 9⟩⟩,
                  ⟨"s", "t2", none⟩,
                  ⟨"s", "t3", none⟩],
        start_node := "s" }
      "s" [("k", .int 1)] = .ok (some "t2") := by
  have h := (get_next_node_first_match
    { nodes := [⟨"s", "noop"⟩, ⟨"t2", "noop"⟩, ⟨"t3", "noop"⟩],
      edges := [⟨"s", "t1", some ⟨"k", "==", .int 9⟩⟩,
                ⟨"s", "t2", none⟩,
                ⟨"s", "t3", none⟩],
      start_node := "s" }
    "s" [("k", .int 1)]).1
    [⟨"s", "t1", some ⟨"k", "==", .int 9⟩⟩] ⟨"s", "t2", none⟩ [⟨"s", "t3", none⟩]
    rfl
    (by
      intro e2 he2
      simp only [List.mem_singleton] at he2
      exact ⟨⟨"k", "==", .int 9⟩, by rw [he2], rfl⟩)
    (Or.inl rfl)
  exact h

/-! ## C5: graph creation performs no validation -/

/-- **C5 counterexample.** A definition with duplicate node ids and an
unresolvable start node is persisted anyway: `create_graph` stores it and
returns the generated id instead of failing with `InvalidGraph`. -/
theorem create_graph_no_validation_counterexample :
    ¬ spec_valid_definition dupDef ∧
    create_graph dupDef "gid-1" [] = ("gid-1", [("gid-1", dupDef)]) := by
  refine ⟨fun h => ?_, rfl⟩
  rcases h with ⟨hnodup, _⟩
  simp [dupDef] at hnodup

/-- **C5 (amended).** `create(definition)` performs no structural validation:
even a definition violating the spec's validity requirements (unique node
ids, resolvable start_node) is persisted unchanged and its generated id is
returned; no `InvalidGraph` failure exists in the code. -/
theorem create_graph_persists_invalid (d : GraphCreateRequest) (graph_id : String)
    (db : List (String × GraphCreateRequest)) (_h : ¬ spec_valid_definition d) :
    create_graph d graph_id db = (graph_id, db ++ [(graph_id, d)]) := rfl

/-- Witness for the amended C5. -/
theorem create_graph_persists_invalid_witness :
    create_graph dupDef "gid-2" [("g0", cycGraph)] =
      ("gid-2", [("g0", cycGraph), ("gid-2", dupDef)]) := by
  exact create_graph_persists_invalid dupDef "gid-2" [("g0", cycGraph)]
    (by rintro ⟨hnodup, _⟩; simp [dupDef] at hnodup)

/-! ## C6: relational comparisons on incompatible types -/

/-- Python's comparison raises `TypeError` whenever the two values are not
of the same orderable kind (numeric, string, list). -/
theorem pyCmp_incompat (a b : PyVal)
    (h : orderKind a = none ∨ orderKind b = none ∨ orderKind a ≠ orderKind b) :
    pyCmp a b = .error cmpTypeError := by
  cases a <;> cases b <;> simp_all [orderKind, pyCmp]

/-- **C6 counterexample.** With a list both in the state and in the
condition, the operands are *not* mutually ordered in the spec's sense
(numeric-numeric or string-string), yet `evaluate_condition` succeeds and
returns true instead of failing: Python orders lists lexicographically. -/
theorem evaluate_condition_list_order_counterexample :
    spec_mutually_ordered (stateGet [("k", PyVal.list [.int 1])] "k")
      (PyVal.list [.int 0]) = false ∧
    evaluate_condition ⟨"k", ">", .list [.int 0]⟩ [("k", .list [.int 1])] = .ok true := by
  exact ⟨rfl, rfl⟩

/-- **C6 (amended).** For a relational operator, if the looked-up value
(null sentinel when the key is missing) and the condition's value are not
of the same orderable kind — numeric with numeric (booleans count as
numeric), string with string, or list with list — then `evaluate_condition`
fails with the comparison type error rather than returning false. -/
theorem evaluate_condition_incompatible_types (c : Condition) (st : StateD)
    (hop : c.operator = ">" ∨ c.operator = "<" ∨ c.operator = ">=" ∨ c.operator = "<=")
    (h : orderKind (stateGet st c.key) = none ∨ orderKind c.value = none ∨
      orderKind (stateGet st c.key) ≠ orderKind c.value) :
    evaluate_condition c st = .error cmpTypeError := by
  have hc := pyCmp_incompat _ _ h
  rcases hop with h1 | h1 | h1 | h1 <;> simp [evaluate_condition, h1, hc] <;> rfl

/-- Witness for the amended C6: comparing the null sentinel of a missing
key against a number fails. -/
theorem evaluate_condition_incompatible_types_witness :
    evaluate_condition ⟨"k", ">", .int 1⟩ [] = .error cmpTypeError := by
  exact evaluate_condition_incompatible_types ⟨"k", ">", .int 1⟩ []
    (Or.inl rfl) (Or.inl rfl)

/-! ## Structural lemmas about the step loop -/

theorem afterLoop_steps (s : Nat) (run : RunState) (commits : List RunState) :
    (afterLoop s run commits).steps = s := by
  simp only [afterLoop]
  split <;> rfl

theorem afterLoop_commits_extend (s : Nat) (run : RunState) (commits : List RunState) :
    ∃ t, (afterLoop s run commits).commits = commits ++ t := by
  simp only [afterLoop]
  split
  · exact ⟨_, rfl⟩
  · exact ⟨[], by simp⟩

theorem loopGo_steps_le (reg : Registry) (g : GraphCreateRequest) :
    ∀ (fuel steps : Nat) (run : RunState) (commits : List RunState),
    (loopGo reg g fuel steps run commits).steps ≤ steps + fuel := by
  intro fuel
  induction fuel with
  | zero =>
    intro steps run commits
    rw [show loopGo reg g 0 steps run commits = afterLoop steps run commits from rfl,
      afterLoop_steps]
    omega
  | succ fuel ih =>
    intro steps run commits
    simp only [loopGo]
    split
    · rw [afterLoop_steps]; omega
    · split
      · rw [afterLoop_steps]; omega
      · split
        · rw [afterLoop_steps]; omega
        · split
          · simp only [failOuter]; omega
          · split
            · simp only [failOuter]; omega
            · split
              · simp only []; omega
              · split
                · simp only [failOuter]; omega
                · exact le_trans (ih _ _ _) (by omega)

theorem afterLoop_logs_extend (s : Nat) (run : RunState) (commits : List RunState) :
    ∃ t, (afterLoop s run commits).run.logs = run.logs ++ t := by
  simp only [afterLoop]
  split
  · split
    · exact ⟨_, rfl⟩
    · exact ⟨[], by simp [logR]⟩
  · split
    · exact ⟨_, rfl⟩
    · exact ⟨[], by simp⟩

theorem app1_extend {α : Type} (c : List α) (a : α) : ∃ t, c ++ [a] = c ++ t :=
  ⟨[a], rfl⟩

theorem app2_extend {α : Type} (c : List α) (a b : α) : ∃ t, (c ++ [a]) ++ [b] = c ++ t :=
  ⟨[a, b], by simp⟩

theorem app3_extend {α : Type} (c : List α) (a b d : α) :
    ∃ t, ((c ++ [a]) ++ [b]) ++ [d] = c ++ t :=
  ⟨[a, b, d], by simp⟩

theorem app2t_extend {α : Type} (c : List α) (a b : α) (t : List α) :
    ∃ u, ((c ++ [a]) ++ [b]) ++ t = c ++ u :=
  ⟨a :: b :: t, by simp⟩

theorem loopGo_commits_extend (reg : Registry) (g : GraphCreateRequest) :
    ∀ (fuel steps : Nat) (run : RunState) (commits : List RunState),
    ∃ t, (loopGo reg g fuel steps run commits).commits = commits ++ t := by
  intro fuel
  induction fuel with
  | zero =>
    intro steps run commits
    exact afterLoop_commits_extend steps run commits
  | succ fuel ih =>
    intro steps run commits
    simp only [loopGo]
    split
    · exact afterLoop_commits_extend steps run commits
    · split
      · exact afterLoop_commits_extend steps run commits
      · split
        · exact afterLoop_commits_extend steps run commits
        · split
          · exact app1_extend _ _
          · split
            · exact app2_extend _ _ _
            · split
              · exact app2_extend _ _ _
              · split
                · exact app2_extend _ _ _
                · obtain ⟨t, ht⟩ := ih _ _ _
                  rw [ht]
                  exact app2t_extend _ _ _ _

theorem applyNodeResult_logs (r : RunState) (o : Option StateD) :
    (applyNodeResult r o).logs = r.logs := by
  cases o <;> rfl

theorem applyNodeResult_status (r : RunState) (o : Option StateD) :
    (applyNodeResult r o).status = r.status := by
  cases o <;> rfl

theorem applyNodeResult_cursor (r : RunState) (o : Option StateD) :
    (applyNodeResult r o).current_node_id = r.current_node_id := by
  cases o <;> rfl

theorem applyNextNode_logs (r : RunState) (n : String) (o : Option String) :
    ∃ m, (applyNextNode r n o).logs = r.logs ++ [m] := by
  cases o <;> exact ⟨_, rfl⟩

theorem applyNextNode_status (r : RunState) (n : String) (o : Option String) :
    (applyNextNode r n o).status = r.status := by
  cases o <;> rfl

theorem applyNextNode_state (r : RunState) (n : String) (o : Option String) :
    (applyNextNode r n o).state = r.state := by
  cases o <;> rfl

theorem applyNextNode_cursor (r : RunState) (n : String) (o : Option String) :
    (applyNextNode r n o).current_node_id = o := by
  cases o <;> rfl

theorem suspendRun_logs (r : RunState) :
    (suspendRun r).logs = r.logs ++ ["Suspending for Approval (HITL)."] := rfl

theorem suspendRun_status (r : RunState) : (suspendRun r).status = "awaiting_approval" := rfl

theorem suspendRun_cursor (r : RunState) :
    (suspendRun r).current_node_id = r.current_node_id := rfl

theorem suspendRun_state (r : RunState) :
    (suspendRun r).state = eraseKey r.state "__suspend__" := rfl

theorem failOuter_run_logs (e : PyErr) (s : Nat) (r : RunState) (c : List RunState) :
    (failOuter e s r c).run.logs = r.logs ++ ["Run failed: " ++ errStr e] := rfl

theorem failOuter_run_status (e : PyErr) (s : Nat) (r : RunState) (c : List RunState) :
    (failOuter e s r c).run.status = "failed" := rfl

theorem failOuter_run_cursor (e : PyErr) (s : Nat) (r : RunState) (c : List RunState) :
    (failOuter e s r c).run.current_node_id = r.current_node_id := rfl

theorem loopGo_logs_extend (reg : Registry) (g : GraphCreateRequest) :
    ∀ (fuel steps : Nat) (run : RunState) (commits : List RunState),
    ∃ t, (loopGo reg g fuel steps run commits).run.logs = run.logs ++ t := by
  intro fuel
  induction fuel with
  | zero =>
    intro steps run commits
    exact afterLoop_logs_extend steps run commits
  | succ fuel ih =>
    intro steps run commits
    simp only [loopGo]
    split
    · exact afterLoop_logs_extend steps run commits
    · split
      · exact afterLoop_logs_extend steps run commits
      · split
        · exact afterLoop_logs_extend steps run commits
        · split
          · exact app2_extend _ _ _
          · split
            · exact app3_extend _ _ _ _
            · split
              · simp only [suspendRun_logs, applyNodeResult_logs, logR]
                exact app2_extend _ _ _
              · split
                · simp only [failOuter_run_logs, applyNodeResult_logs, logR]
                  exact app2_extend _ _ _
                · obtain ⟨t, ht⟩ := ih _ _ _
                  rw [ht]
                  obtain ⟨m, hm⟩ := applyNextNode_logs _ _ _
                  rw [hm, applyNodeResult_logs]
                  simp only [logR]
                  exact app2t_extend _ _ _ _

theorem app1t_extend {α : Type} (c : List α) (a : α) (t : List α) :
    ∃ u, (c ++ [a]) ++ t = c ++ u :=
  ⟨a :: t, by simp⟩

theorem extend_through {α : Type} (c : List α) (a : α) (X : List α)
    (h : ∃ u, X = (c ++ [a]) ++ u) : ∃ t, X = c ++ a :: t := by
  obtain ⟨u, hu⟩ := h
  exact ⟨u, by rw [hu]; simp⟩

/-! ## C4: resuming a failed run -/

/-- **C4 (amended).** Resuming a run whose persisted status is `failed`
(such runs always have a non-null cursor) executes nothing, commits
nothing, leaves status, cursor, state and logs untouched, and returns the
failed snapshot normally — it does **not** fail with `RunTerminated` (no
such error exists in the code). -/
theorem resume_failed_noop (reg : Registry) (g : GraphCreateRequest) (run : RunState)
    (n : String) (hst : run.status = "failed") (hcur : run.current_node_id = some n) :
    resume_run reg g run = { run := run, commits := [], steps := 0, err := none } := by
  obtain ⟨rid, gid, stt, cur, st, lgs⟩ := run
  simp only at hst hcur
  subst hst
  subst hcur
  rfl

/-- **C4 counterexample.** `resume` on a failed run returns the snapshot
normally (`err = none`) instead of failing with `RunTerminated`. -/
theorem resume_failed_counterexample :
    resume_run demoReg boomGraph
      { run_id := "r", graph_id := "g", status := "failed", current_node_id := some "a",
        state := [("k", .int 1)], logs := ["log0"] } =
      { run := { run_id := "r", graph_id := "g", status := "failed",
                 current_node_id := some "a", state := [("k", .int 1)], logs := ["log0"] },
        commits := [], steps := 0, err := none } := rfl

/-- Witness for the amended C4. -/
theorem resume_failed_noop_witness :
    resume_run demoReg cycGraph
      { run_id := "r2", graph_id := "g2", status := "failed", current_node_id := some "b",
        state := [], logs := [] } =
      { run := { run_id := "r2", graph_id := "g2", status := "failed",
                 current_node_id := some "b", state := [], logs := [] },
        commits := [], steps := 0, err := none } := by
  exact resume_failed_noop demoReg cycGraph _ "b" rfl rfl

theorem cons1_extend {α : Type} (c : List α) (a b : α) :
    ∃ t, (c ++ [a]) ++ [b] = c ++ a :: t :=
  ⟨[b], by simp⟩

theorem cons2_extend {α : Type} (c : List α) (a b d : α) :
    ∃ t, ((c ++ [a]) ++ [b]) ++ [d] = c ++ a :: t :=
  ⟨[b, d], by simp⟩

theorem cons1t_extend {α : Type} (c : List α) (a b : α) (t : List α) :
    ∃ u, ((c ++ [a]) ++ [b]) ++ t = c ++ a :: u :=
  ⟨b :: t, by simp⟩

/-- One iteration of the loop, entered with a running status and a set
cursor, always logs the execution of the cursor node first. -/
theorem loopGo_succ_logs (reg : Registry) (g : GraphCreateRequest)
    (fuel steps : Nat) (run : RunState) (commits : List RunState) (n : String)
    (hst : run.status = "running") (hcur : run.current_node_id = some n)
    (hsteps : steps < 50) :
    ∃ t, (loopGo reg g (fuel + 1) steps run commits).run.logs =
      run.logs ++ ("Executing node: " ++ n) :: t := by
  simp only [loopGo, hcur, hst]
  rw [if_neg (by omega : ¬ 50 ≤ steps)]
  norm_num
  split
  · exact cons1_extend _ _ _
  · split
    · exact cons2_extend _ _ _ _
    · split
      · simp only [suspendRun_logs, applyNodeResult_logs, logR]
        exact cons1_extend _ _ _
      · split
        · simp only [failOuter_run_logs, applyNodeResult_logs, logR]
          exact cons1_extend _ _ _
        · obtain ⟨t, ht⟩ := loopGo_logs_extend reg g _ _ _ _
          rw [ht]
          obtain ⟨m, hm⟩ := applyNextNode_logs _ _ _
          rw [hm, applyNodeResult_logs]
          simp only [logR]
          exact cons1t_extend _ _ _ _

/-! ## C10: resuming a run left in status running -/

/-- **C10.** Resuming a run whose persisted status is still `running`
(as after budget exhaustion with a non-null cursor) neither fails nor
performs the awaiting_approval cursor advance: `resume_run` re-enters the
step loop directly on the unchanged run, and the loop's first action is to
execute the node at the current cursor again. -/
theorem resume_running_reenters_loop (reg : Registry) (g : GraphCreateRequest)
    (run : RunState) (n : String)
    (hst : run.status = "running") (hcur : run.current_node_id = some n) :
    resume_run reg g run = execLoop reg g run ∧
    ∃ t, (execLoop reg g run).run.logs = run.logs ++ ("Executing node: " ++ n) :: t := by
  constructor
  · simp only [resume_run, hst]
    rfl
  · exact loopGo_succ_logs reg g 49 0 run [] n hst hcur (by omega)

/-- Witness for C10: a concrete running run with the cursor parked on a
cycle node. -/
theorem resume_running_reenters_loop_witness :
    (resume_run demoReg cycGraph
        { run_id := "r", graph_id := "g", status := "running",
          current_node_id := some "a", state := [], logs := [] } =
      execLoop demoReg cycGraph
        { run_id := "r", graph_id := "g", status := "running",
          current_node_id := some "a", state := [], logs := [] }) ∧
    ∃ t, (execLoop demoReg cycGraph
        { run_id := "r", graph_id := "g", status := "running",
          current_node_id := some "a", state := [], logs := [] }).run.logs =
      [] ++ ("Executing node: " ++ "a") :: t := by
  exact resume_running_reenters_loop demoReg cycGraph _ "a" rfl rfl

/-! ## C9: node results fully replace or retain the state -/

/-- Checkpoint A is the first commit of a loop invocation: it persists the
run with the node's result applied (replacement or retention). -/
theorem loopGo_succ_first_commit (reg : Registry) (g : GraphCreateRequest)
    (fuel steps : Nat) (run : RunState) (n : String) (f : NodeFunc)
    (hst : run.status = "running") (hcur : run.current_node_id = some n)
    (hsteps : steps < 50) (hf : get_node_func g reg n = .ok f) :
    ∀ o, f run.state = .ok o →
      (loopGo reg g (fuel + 1) steps run []).commits.head? =
        some (applyNodeResult (logR run ("Executing node: " ++ n)) o) := by
  intro o hex
  simp only [loopGo, hcur, hst]
  rw [if_neg (by omega : ¬ 50 ≤ steps)]
  norm_num
  simp only [hf, logR]
  simp only [hex]
  split
  · rfl
  · split
    · rfl
    · obtain ⟨t, ht⟩ := loopGo_commits_extend reg g fuel _ _ _
      rw [ht]
      rfl

/-- **C9.** Each node execution applies the resolved function to the
current state; the run state persisted by Checkpoint A — the first commit
of the loop invocation — is exactly the prior state when the function
signals no change (`None`), and otherwise is exactly the returned state,
with no merge of old and new entries. -/
theorem node_result_replaces_state (reg : Registry) (g : GraphCreateRequest)
    (run : RunState) (n : String) (f : NodeFunc)
    (hst : run.status = "running") (hcur : run.current_node_id = some n)
    (hf : get_node_func g reg n = .ok f) :
    (f run.state = .ok none →
      (execLoop reg g run).commits.head? =
        some { run with logs := run.logs ++ ["Executing node: " ++ n] }) ∧
    (∀ s2, f run.state = .ok (some s2) →
      (execLoop reg g run).commits.head? =
        some { run with state := s2, logs := run.logs ++ ["Executing node: " ++ n] }) := by
  constructor
  · intro hex
    exact loopGo_succ_first_commit reg g 49 0 run n f hst hcur (by omega) hf none hex
  · intro s2 hex
    exact loopGo_succ_first_commit reg g 49 0 run n f hst hcur (by omega) hf (some s2) hex

/-- Witness for C9: a noop node retains the state exactly; a
marker-setting node replaces it exactly. -/
theorem node_result_replaces_state_witness :
    ((execLoop demoReg cycGraph
        { run_id := "r", graph_id := "g", status := "running",
          current_node_id := some "a", state := [("x", .int 1)], logs := [] }).commits.head? =
      some { run_id := "r", graph_id := "g", status := "running",
             current_node_id := some "a", state := [("x", .int 1)],
             logs := ["Executing node: " ++ "a"] }) ∧
    ((execLoop demoReg suspGraph
        { run_id := "r", graph_id := "g", status := "running",
          current_node_id := some "a", state := [], logs := [] }).commits.head? =
      some { run_id := "r", graph_id := "g", status := "running",
             current_node_id := some "a", state := [("__suspend__", .bool true)],
             logs := ["Executing node: " ++ "a"] }) := by
  constructor
  · exact (node_result_replaces_state demoReg cycGraph _ "a" noopFunc rfl rfl rfl).1 rfl
  · exact (node_result_replaces_state demoReg suspGraph _ "a" suspFunc rfl rfl rfl).2
      [("__suspend__", .bool true)] rfl

/-! ## C1: suspension and resume round trip -/

/-- A loop iteration whose node leaves a truthy `__suspend__` marker:
Checkpoint A persists the marked state; then the loop strips the marker,
sets status to awaiting_approval, persists (Checkpoint B) and returns with
the cursor still on the triggering node. -/
theorem loopGo_succ_suspend (reg : Registry) (g : GraphCreateRequest)
    (fuel steps : Nat) (run : RunState) (n : String) (f : NodeFunc) (s2 : StateD)
    (hst : run.status = "running") (hcur : run.current_node_id = some n)
    (hsteps : steps < 50) (hf : get_node_func g reg n = .ok f)
    (hex : f run.state = .ok (some s2))
    (hsus : pyTruthy (stateGet s2 "__suspend__") = true) :
    loopGo reg g (fuel + 1) steps run [] =
      { run :=
          { run with
            status := "awaiting_approval",
            state := eraseKey s2 "__suspend__",
            logs := run.logs ++ ["Executing node: " ++ n, "Suspending for Approval (HITL)."] },
        commits :=
          [{ run with
             state := s2,
             logs := run.logs ++ ["Executing node: " ++ n] },
           { run with
             status := "awaiting_approval",
             state := eraseKey s2 "__suspend__",
             logs := run.logs ++ ["Executing node: " ++ n, "Suspending for Approval (HITL)."] }],
        steps := steps + 1,
        err := none } := by
  simp only [loopGo, hcur, hst]
  rw [if_neg (by omega : ¬ 50 ≤ steps)]
  norm_num
  simp only [hf, logR]
  simp only [hex, applyNodeResult]
  simp only [hsus]
  simp [suspendRun, logR, commitR]
  exact ⟨hcur, hst, hcur⟩

/-- **C1.** When the node just executed leaves the (truthy) reserved
suspend marker in the state, the loop persists the marked state
(Checkpoint A), then strips the marker from the persisted state, sets
status to awaiting_approval, persists again and returns that snapshot with
the cursor still on the triggering node; and `resume_run` on any
awaiting_approval run computes the next node exactly as `next_node` would
from the current cursor and state, advances the cursor to it, sets status
to running, logs and persists the resume checkpoint, and continues the
step loop from there. -/
theorem suspend_resume_round_trip (reg : Registry) (g : GraphCreateRequest)
    (run : RunState) (n : String) (f : NodeFunc) (s2 : StateD)
    (hst : run.status = "running") (hcur : run.current_node_id = some n)
    (hf : get_node_func g reg n = .ok f) (hex : f run.state = .ok (some s2))
    (hsus : pyTruthy (stateGet s2 "__suspend__") = true) :
    (execLoop reg g run =
      { run :=
          { run with
            status := "awaiting_approval",
            state := eraseKey s2 "__suspend__",
            logs := run.logs ++ ["Executing node: " ++ n, "Suspending for Approval (HITL)."] },
        commits :=
          [{ run with
             state := s2,
             logs := run.logs ++ ["Executing node: " ++ n] },
           { run with
             status := "awaiting_approval",
             state := eraseKey s2 "__suspend__",
             logs := run.logs ++ ["Executing node: " ++ n, "Suspending for Approval (HITL)."] }],
        steps := 1,
        err := none }) ∧
    (execLoop reg g run).run.current_node_id = some n ∧
    (∀ (run2 : RunState) (c2 : String) (nxt : Option String),
      run2.status = "awaiting_approval" → run2.current_node_id = some c2 →
      get_next_node g c2 run2.state = .ok nxt →
      resume_run reg g run2 =
        { execLoop reg g (logR { run2 with current_node_id := nxt, status := "running" }
            ("Resuming from AWAITING_APPROVAL. Transitioning to " ++ optStr nxt)) with
          commits := logR { run2 with current_node_id := nxt, status := "running" }
              ("Resuming from AWAITING_APPROVAL. Transitioning to " ++ optStr nxt) ::
            (execLoop reg g (logR { run2 with current_node_id := nxt, status := "running" }
              ("Resuming from AWAITING_APPROVAL. Transitioning to " ++ optStr nxt))).commits }) := by
  have h1 := loopGo_succ_suspend reg g 49 0 run n f s2 hst hcur (by omega) hf hex hsus
  refine ⟨h1, ?_, ?_⟩
  · rw [show execLoop reg g run = loopGo reg g (49 + 1) 0 run [] from rfl, h1]
    exact hcur
  · intro run2 c2 nxt hst2 hcur2 hnext
    simp only [resume_run, hst2, hcur2, hnext]
    rfl

/-- Witness for C1: the `wait_for_approval`-style node suspends the run and
a subsequent resume advances to the noop node. -/
theorem suspend_resume_round_trip_witness :
    (execLoop demoReg suspGraph wSuspRun =
      { run :=
          { wSuspRun with
            status := "awaiting_approval",
            state := eraseKey wSuspState "__suspend__",
            logs := wSuspRun.logs ++
              ["Executing node: " ++ "a", "Suspending for Approval (HITL)."] },
        commits :=
          [{ wSuspRun with
             state := wSuspState,
             logs := wSuspRun.logs ++ ["Executing node: " ++ "a"] },
           { wSuspRun with
             status := "awaiting_approval",
             state := eraseKey wSuspState "__suspend__",
             logs := wSuspRun.logs ++
               ["Executing node: " ++ "a", "Suspending for Approval (HITL)."] }],
        steps := 1,
        err := none }) ∧
    (execLoop demoReg suspGraph wSuspRun).run.current_node_id = some "a" ∧
    resume_run demoReg suspGraph wSusRow =
      { execLoop demoReg suspGraph
          (logR { wSusRow with current_node_id := some "b", status := "running" }
            ("Resuming from AWAITING_APPROVAL. Transitioning to " ++ optStr (some "b"))) with
        commits := logR { wSusRow with current_node_id := some "b", status := "running" }
            ("Resuming from AWAITING_APPROVAL. Transitioning to " ++ optStr (some "b")) ::
          (execLoop demoReg suspGraph
            (logR { wSusRow with current_node_id := some "b", status := "running" }
              ("Resuming from AWAITING_APPROVAL. Transitioning to " ++ optStr (some "b")))).commits } := by
  have H := suspend_resume_round_trip demoReg suspGraph wSuspRun "a" suspFunc wSuspState
    rfl rfl rfl rfl rfl
  exact ⟨H.1, H.2.1, H.2.2 wSusRow "a" (some "b") rfl rfl rfl⟩

/-! ## C3: error handling at the loop boundary -/

/-- What one loop iteration does with each kind of error.  A failed
function resolution or next-node resolution is caught once, by the
boundary handler (one error log entry, one failed commit); an error raised
by the node function itself is additionally caught and logged at the
execution site, so it produces two error log entries and two failed
commits. In every case status=failed is persisted and the error re-raised. -/
theorem loopGo_succ_error (reg : Registry) (g : GraphCreateRequest)
    (fuel steps : Nat) (run : RunState) (n : String)
    (hst : run.status = "running") (hcur : run.current_node_id = some n)
    (hsteps : steps < 50) :
    (∀ e, get_node_func g reg n = .error e →
      loopGo reg g (fuel + 1) steps run [] =
        { run :=
            { run with
              status := "failed",
              logs := run.logs ++ ["Executing node: " ++ n, "Run failed: " ++ errStr e] },
          commits :=
            [{ run with
               status := "failed",
               logs := run.logs ++ ["Executing node: " ++ n, "Run failed: " ++ errStr e] }],
          steps := steps + 1,
          err := some e }) ∧
    (∀ (f : NodeFunc) e, get_node_func g reg n = .ok f → f run.state = .error e →
      loopGo reg g (fuel + 1) steps run [] =
        { run :=
            { run with
              status := "failed",
              logs := run.logs ++ ["Executing node: " ++ n,
                "Error executing node " ++ n ++ ": " ++ errStr e,
                "Run failed: " ++ errStr e] },
          commits :=
            [{ run with
               status := "failed",
               logs := run.logs ++ ["Executing node: " ++ n,
                 "Error executing node " ++ n ++ ": " ++ errStr e] },
             { run with
               status := "failed",
               logs := run.logs ++ ["Executing node: " ++ n,
                 "Error executing node " ++ n ++ ": " ++ errStr e,
                 "Run failed: " ++ errStr e] }],
          steps := steps + 1,
          err := some e }) ∧
    (∀ (f : NodeFunc) (s2 : StateD) e, get_node_func g reg n = .ok f →
      f run.state = .ok (some s2) →
      pyTruthy (stateGet s2 "__suspend__") = false →
      get_next_node g n s2 = .error e →
      loopGo reg g (fuel + 1) steps run [] =
        { run :=
            { run with
              status := "failed",
              state := s2,
              logs := run.logs ++ ["Executing node: " ++ n, "Run failed: " ++ errStr e] },
          commits :=
            [{ run with
               state := s2,
               logs := run.logs ++ ["Executing node: " ++ n] },
             { run with
               status := "failed",
               state := s2,
               logs := run.logs ++ ["Executing node: " ++ n, "Run failed: " ++ errStr e] }],
          steps := steps + 1,
          err := some e }) := by
  refine ⟨?_, ?_, ?_⟩
  · intro e hf
    simp only [loopGo, hcur, hst]
    rw [if_neg (by omega : ¬ 50 ≤ steps)]
    norm_num
    simp only [hf, logR]
    simp [failOuter, logR, commitR]
    simp [hcur, hst]
  · intro f e hf hex
    simp only [loopGo, hcur, hst]
    rw [if_neg (by omega : ¬ 50 ≤ steps)]
    norm_num
    simp only [hf, logR]
    simp only [hex]
    simp [failOuter, logR, commitR]
    simp [hcur, hst]
  · intro f s2 e hf hex hsus hnext
    simp only [loopGo, hcur, hst]
    rw [if_neg (by omega : ¬ 50 ≤ steps)]
    norm_num
    simp only [hf, logR]
    simp only [hex, applyNodeResult]
    simp only [hsus]
    simp only [hnext]
    simp [failOuter, logR, commitR]
    simp [hcur, hst]

/-- **C3 (amended).** Every error raised in the step loop reaches the
boundary handler, which sets status=failed, appends a `Run failed:` entry,
persists the failed run and re-raises the error to the caller; errors from
function resolution and from next-node resolution are caught only there
(exactly one error entry, one failed commit), but an error raised by the
node function itself is also caught and logged at the execution site, so
it appends **two** error entries and persists the failed run twice. -/
theorem loop_error_caught (reg : Registry) (g : GraphCreateRequest)
    (run : RunState) (n : String)
    (hst : run.status = "running") (hcur : run.current_node_id = some n) :
    (∀ e, get_node_func g reg n = .error e →
      execLoop reg g run =
        { run :=
            { run with
              status := "failed",
              logs := run.logs ++ ["Executing node: " ++ n, "Run failed: " ++ errStr e] },
          commits :=
            [{ run with
               status := "failed",
               logs := run.logs ++ ["Executing node: " ++ n, "Run failed: " ++ errStr e] }],
          steps := 1,
          err := some e }) ∧
    (∀ (f : NodeFunc) e, get_node_func g reg n = .ok f → f run.state = .error e →
      execLoop reg g run =
        { run :=
            { run with
              status := "failed",
              logs := run.logs ++ ["Executing node: " ++ n,
                "Error executing node " ++ n ++ ": " ++ errStr e,
                "Run failed: " ++ errStr e] },
          commits :=
            [{ run with
               status := "failed",
               logs := run.logs ++ ["Executing node: " ++ n,
                 "Error executing node " ++ n ++ ": " ++ errStr e] },
             { run with
               status := "failed",
               logs := run.logs ++ ["Executing node: " ++ n,
                 "Error executing node " ++ n ++ ": " ++ errStr e,
                 "Run failed: " ++ errStr e] }],
          steps := 1,
          err := some e }) ∧
    (∀ (f : NodeFunc) (s2 : StateD) e, get_node_func g reg n = .ok f →
      f run.state = .ok (some s2) →
      pyTruthy (stateGet s2 "__suspend__") = false →
      get_next_node g n s2 = .error e →
      execLoop reg g run =
        { run :=
            { run with
              status := "failed",
              state := s2,
              logs := run.logs ++ ["Executing node: " ++ n, "Run failed: " ++ errStr e] },
          commits :=
            [{ run with
               state := s2,
               logs := run.logs ++ ["Executing node: " ++ n] },
             { run with
               status := "failed",
               state := s2,
               logs := run.logs ++ ["Executing node: " ++ n, "Run failed: " ++ errStr e] }],
          steps := 1,
          err := some e }) := by
  have H := loopGo_succ_error reg g 49 0 run n hst hcur (by omega)
  exact ⟨H.1, H.2.1, H.2.2⟩

/-- **C3 counterexample.** A node-execution error appends *two* error
entries to the run's log (one at the execution site, one at the loop
boundary) and commits the failed run twice — not "exactly one error
entry". -/
theorem error_logged_twice_counterexample :
    (run_graph demoReg boomGraph "g" "r" []).run.logs =
      ["Starting run r with graph g", "Executing node: a",
       "Error executing node a: boom", "Run failed: boom"] ∧
    (run_graph demoReg boomGraph "g" "r" []).commits.length = 3 ∧
    (run_graph demoReg boomGraph "g" "r" []).err = some (.exc "boom") :=
  ⟨rfl, rfl, rfl⟩

/-- Witness for the amended C3, at the node-execution error case. -/
theorem loop_error_caught_witness :
    execLoop demoReg boomGraph
      { run_id := "r", graph_id := "g", status := "running",
        current_node_id := some "a", state := [], logs := [] } =
      { run :=
          { run_id := "r", graph_id := "g", status := "failed",
            current_node_id := some "a", state := [],
            logs := ["Executing node: a", "Error executing node a: boom",
              "Run failed: boom"] },
        commits :=
          [{ run_id := "r", graph_id := "g", status := "failed",
             current_node_id := some "a", state := [],
             logs := ["Executing node: a", "Error executing node a: boom"] },
           { run_id := "r", graph_id := "g", status := "failed",
             current_node_id := some "a", state := [],
             logs := ["Executing node: a", "Error executing node a: boom",
               "Run failed: boom"] }],
        steps := 1,
        err := some (.exc "boom") } := by
  exact (loop_error_caught demoReg boomGraph
    { run_id := "r", graph_id := "g", status := "running",
      current_node_id := some "a", state := [], logs := [] } "a" rfl rfl).2.1
    boomFunc (.exc "boom") rfl rfl

/-! ## C7: the fixed step budget -/

/-- On the two-node cycle with noop functions, the loop spends its whole
remaining budget, logs the exhaustion, and returns without error. -/
theorem cyc_loop : ∀ (fuel steps : Nat) (run : RunState) (commits : List RunState),
    run.status = "running" →
    (run.current_node_id = some "a" ∨ run.current_node_id = some "b") →
    pyTruthy (stateGet run.state "__suspend__") = false →
    steps + fuel = 50 →
    (loopGo demoReg cycGraph fuel steps run commits).steps = 50 ∧
    "Max steps reached. Terminating." ∈
      (loopGo demoReg cycGraph fuel steps run commits).run.logs ∧
    (loopGo demoReg cycGraph fuel steps run commits).err = none := by
  intro fuel
  induction fuel with
  | zero =>
    intro steps run commits hst hcur hsus hsum
    have h50 : 50 ≤ steps := by omega
    rw [show loopGo demoReg cycGraph 0 steps run commits = afterLoop steps run commits from rfl]
    rcases hcur with h | h <;>
      · simp only [afterLoop, if_pos h50, logR, h]
        refine ⟨by omega, by simp, by trivial⟩
  | succ fuel ih =>
    intro steps run commits hst hcur hsus hsum
    have hga : ∀ st : StateD, get_next_node cycGraph "a" st = .ok (some "b") := fun st => rfl
    have hgb : ∀ st : StateD, get_next_node cycGraph "b" st = .ok (some "a") := fun st => rfl
    have hfa : get_node_func cycGraph demoReg "a" = .ok noopFunc := rfl
    have hfb : get_node_func cycGraph demoReg "b" = .ok noopFunc := rfl
    rcases hcur with h | h
    · simp only [loopGo, h, hst]
      rw [if_neg (by omega : ¬ 50 ≤ steps)]
      norm_num
      simp only [hfa, noopFunc, applyNodeResult, logR]
      simp only [hsus]
      norm_num
      simp only [hga, applyNextNode, logR]
      exact ih (steps + 1) _ _ hst (Or.inr rfl) hsus (by omega)
    · simp only [loopGo, h, hst]
      rw [if_neg (by omega : ¬ 50 ≤ steps)]
      norm_num
      simp only [hfb, noopFunc, applyNodeResult, logR]
      simp only [hsus]
      norm_num
      simp only [hgb, applyNextNode, logR]
      exact ih (steps + 1) _ _ hst (Or.inl rfl) hsus (by omega)

/-- **C7.** A single loop invocation executes at most 50 nodes; on the
two-node cycle with no terminating condition it executes exactly 50 nodes,
logs the budget exhaustion, and returns instead of looping forever. -/
theorem step_budget_bound :
    (∀ (reg : Registry) (g : GraphCreateRequest) (run : RunState),
      (execLoop reg g run).steps ≤ 50) ∧
    (∀ (rid gid : String) (st : StateD) (lgs : List String),
      pyTruthy (stateGet st "__suspend__") = false →
      (execLoop demoReg cycGraph ⟨rid, gid, "running", some "a", st, lgs⟩).steps = 50 ∧
      "Max steps reached. Terminating." ∈
        (execLoop demoReg cycGraph ⟨rid, gid, "running", some "a", st, lgs⟩).run.logs ∧
      (execLoop demoReg cycGraph ⟨rid, gid, "running", some "a", st, lgs⟩).err = none) := by
  constructor
  · intro reg g run
    exact loopGo_steps_le reg g 50 0 run []
  · intro rid gid st lgs hsus
    exact cyc_loop 50 0 ⟨rid, gid, "running", some "a", st, lgs⟩ [] rfl (Or.inl rfl) hsus rfl

/-- Witness for C7 on a concrete empty initial state. -/
theorem step_budget_bound_witness :
    (execLoop demoReg cycGraph ⟨"r", "g", "running", some "a", [], []⟩).steps ≤ 50 ∧
    pyTruthy (stateGet ([] : StateD) "__suspend__") = false ∧
    ((execLoop demoReg cycGraph ⟨"r", "g", "running", some "a", [], []⟩).steps = 50 ∧
      "Max steps reached. Terminating." ∈
        (execLoop demoReg cycGraph ⟨"r", "g", "running", some "a", [], []⟩).run.logs ∧
      (execLoop demoReg cycGraph ⟨"r", "g", "running", some "a", [], []⟩).err = none) := by
  exact ⟨step_budget_bound.1 demoReg cycGraph _, rfl,
    step_budget_bound.2 "r" "g" [] [] rfl⟩

/-! ## C8: the persisted status/cursor invariant -/

theorem rowInv_running (r : RunState) (hs : r.status = "running") : rowInv r := by
  refine ⟨Or.inl hs, fun h => ?_, fun h => ?_, fun h => ?_⟩ <;>
    · rw [hs] at h
      exact absurd h (by decide)

theorem rowInv_completed (r : RunState) (hs : r.status = "completed")
    (h : r.current_node_id = none) : rowInv r := by
  refine ⟨Or.inr (Or.inr (Or.inl hs)), fun _ => h, fun h2 => ?_, fun h2 => ?_⟩ <;>
    · rw [hs] at h2
      exact absurd h2 (by decide)

theorem rowInv_awaiting (r : RunState) (hs : r.status = "awaiting_approval")
    (h : r.current_node_id ≠ none) : rowInv r := by
  refine ⟨Or.inr (Or.inl hs), fun h2 => ?_, fun _ => h, fun h2 => ?_⟩ <;>
    · rw [hs] at h2
      exact absurd h2 (by decide)

theorem rowInv_failed (r : RunState) (hs : r.status = "failed")
    (h : r.current_node_id ≠ none) : rowInv r := by
  refine ⟨Or.inr (Or.inr (Or.inr hs)), fun h2 => ?_, fun h2 => ?_, fun _ => h⟩ <;>
    · rw [hs] at h2
      exact absurd h2 (by decide)

theorem afterLoop_inv (s : Nat) (run : RunState) (commits : List RunState)
    (r2 : RunState) (h : r2 ∈ (afterLoop s run commits).commits) :
    r2 ∈ commits ∨ rowInv r2 := by
  revert h
  rcases hc : (if 50 ≤ s then logR run "Max steps reached. Terminating." else run).current_node_id
    with _ | n
  · simp only [afterLoop, hc]
    intro h
    simp only [commitR, List.mem_append, List.mem_singleton] at h
    rcases h with h | h
    · exact Or.inl h
    · subst h
      exact Or.inr (rowInv_completed _ rfl rfl)
  · simp only [afterLoop, hc]
    exact fun h => Or.inl h

theorem loopGo_inv (reg : Registry) (g : GraphCreateRequest) :
    ∀ (fuel steps : Nat) (run : RunState) (commits : List RunState) (r2 : RunState),
    r2 ∈ (loopGo reg g fuel steps run commits).commits → r2 ∈ commits ∨ rowInv r2 := by
  intro fuel
  induction fuel with
  | zero =>
    intro steps run commits r2 h
    exact afterLoop_inv steps run commits r2 h
  | succ fuel ih =>
    intro steps run commits r2
    simp only [loopGo]
    split
    · exact afterLoop_inv steps run commits r2
    · split
      · exact afterLoop_inv steps run commits r2
      · split
        · exact afterLoop_inv steps run commits r2
        · rename_i node_id hcureq hsteps hstatus
          have hst : run.status = "running" := by simpa using hstatus
          split
          · intro h
            simp only [failOuter, commitR, List.mem_append, List.mem_singleton] at h
            rcases h with h | h
            · exact Or.inl h
            · subst h
              exact Or.inr (rowInv_failed _ rfl (by simp [logR, hcureq]))
          · split
            · intro h
              simp only [failOuter, commitR, List.mem_append, List.mem_singleton] at h
              rcases h with (h | h) | h
              · exact Or.inl h
              · subst h
                exact Or.inr (rowInv_failed _ rfl (by simp [logR, hcureq]))
              · subst h
                exact Or.inr (rowInv_failed _ rfl (by simp [logR, hcureq]))
            · split
              · intro h
                simp only [commitR, List.mem_append, List.mem_singleton] at h
                rcases h with (h | h) | h
                · exact Or.inl h
                · subst h
                  exact Or.inr (rowInv_running _
                    (by simp [applyNodeResult_status, logR, hst]))
                · subst h
                  exact Or.inr (rowInv_awaiting _ (suspendRun_status _)
                    (by simp [suspendRun_cursor, applyNodeResult_cursor, logR, hcureq]))
              · split
                · intro h
                  simp only [failOuter, commitR, List.mem_append, List.mem_singleton] at h
                  rcases h with (h | h) | h
                  · exact Or.inl h
                  · subst h
                    exact Or.inr (rowInv_running _
                      (by simp [applyNodeResult_status, logR, hst]))
                  · subst h
                    exact Or.inr (rowInv_failed _ rfl
                      (by simp [applyNodeResult_cursor, logR, hcureq]))
                · intro h
                  rcases ih _ _ _ r2 h with h | h
                  · simp only [commitR, List.mem_append, List.mem_singleton] at h
                    rcases h with (h | h) | h
                    · exact Or.inl h
                    · subst h
                      exact Or.inr (rowInv_running _
                        (by simp [applyNodeResult_status, logR, hst]))
                    · subst h
                      exact Or.inr (rowInv_running _
                        (by simp [applyNextNode_status, applyNodeResult_status, logR, hst]))
                  · exact Or.inr h

theorem resume_inv (reg : Registry) (g : GraphCreateRequest) (run r2 : RunState)
    (h : r2 ∈ (resume_run reg g run).commits) : rowInv r2 := by
  revert h
  simp only [resume_run]
  split
  · intro h
    simp at h
  · split
    · split
      · intro h
        simp at h
      · intro h
        simp only [List.mem_cons] at h
        rcases h with h | h
        · subst h
          exact rowInv_running _ rfl
        · rcases loopGo_inv reg g 50 0 _ [] r2 h with h2 | h2
          · simp at h2
          · exact h2
    · intro h
      rcases loopGo_inv reg g 50 0 run [] r2 h with h2 | h2
      · simp at h2
      · exact h2

theorem run_graph_inv (reg : Registry) (g : GraphCreateRequest)
    (gid rid : String) (st : StateD) (r2 : RunState)
    (h : r2 ∈ (run_graph reg g gid rid st).commits) : rowInv r2 := by
  revert h
  simp only [run_graph]
  intro h
  simp only [List.mem_cons] at h
  rcases h with h | h
  · subst h
    exact rowInv_running _ rfl
  · rcases loopGo_inv reg g 50 0 _ [] r2 h with h2 | h2
    · simp at h2
    · exact h2

/-- **C8 (amended).** In every persisted RunState reachable through the
engine's operations (run, resume, and the step loop's checkpoints), the
status is one of running / awaiting_approval / completed / failed; the
cursor is null whenever status is completed and non-null whenever status
is awaiting_approval **or failed**; while status is running the cursor may
be either null (on the checkpoint immediately preceding completion) or
non-null.  The original biconditional fails because failed rows keep the
cursor of the failing node. -/
theorem persisted_cursor_invariant (reg : Registry) (g : GraphCreateRequest)
    (r : RunState) (h : CommittedRow reg g r) : rowInv r := by
  cases h with
  | ofRun gid rid st r0 hmem => exact run_graph_inv reg g gid rid st r hmem
  | ofResume rr r0 hr hmem => exact resume_inv reg g rr r hmem

/-- **C8 counterexample.** A reachable persisted row (committed by the
loop's failure handler) has status failed — outside
{running, awaiting_approval} — while its cursor is still non-null,
contradicting "non-null exactly while status is running or
awaiting_approval". -/
theorem cursor_invariant_counterexample :
    CommittedRow demoReg boomGraph c8Row ∧
    c8Row.status = "failed" ∧
    c8Row.current_node_id = some "a" ∧
    ¬(c8Row.status = "running" ∨ c8Row.status = "awaiting_approval") := by
  refine ⟨CommittedRow.ofRun "g" "r" [] c8Row ?_, rfl, rfl, by decide⟩
  rw [show (run_graph demoReg boomGraph "g" "r" []).commits = [c8Row0, c8Row, c8Row2] from rfl]
  exact List.mem_cons_of_mem _ (List.mem_cons_self _ _)

/-- Witness for the amended C8 at a concrete committed row. -/
theorem persisted_cursor_invariant_witness : rowInv c8Row2 := by
  refine persisted_cursor_invariant demoReg boomGraph c8Row2
    (CommittedRow.ofRun "g" "r" [] c8Row2 ?_)
  rw [show (run_graph demoReg boomGraph "g" "r" []).commits = [c8Row0, c8Row, c8Row2] from rfl]
  exact List.mem_cons_of_mem _ (List.mem_cons_of_mem _ (List.mem_cons_self _ _))
